import Mathlib

/-!
Verification of the stock-analysis tool server (`server.py`).

The development shallowly embeds the server code. External collaborators
(the Yahoo Finance market-data provider and the ChromaDB vector index) are
modelled as behaviour parameters quantified over in each theorem:

* `prov : String → Option TickerRecord` models `yf.Ticker(ticker)` together
  with the `.info` access performed inside `get_ticker_data`; `none` models
  the exception path of the `try` block (the code returns `None` there).
* The lazily fetched members of a ticker record (`.history` and
  `.quarterly_income_stmt`) perform network IO on every access, so their
  per-attempt outcomes are passed to the tools as `Except` parameters
  (`h1 h2`, `q1 q2`); an `.error` value models a raised exception whose
  `str()` is the carried message.
* Exception messages raised by attribute access on `None` are modelled by
  the constants `attrErrHistory`, `attrErrInfo`, `attrErrIncome`
  (abbreviations of the corresponding Python `AttributeError` texts).
* `functools.lru_cache(maxsize=128)` is modelled by an association list in
  most-recently-used-first order, with the exact CPython discipline: the
  cache key is the raw argument string, a hit moves the entry to the front,
  a miss inserts at the front and truncates to the capacity.  The `calls`
  counter counts executions of the wrapped body, i.e. provider contacts;
  `slept` counts the time units spent in `time.sleep`.
-/

set_option autoImplicit false

namespace StockServer

/-- A successfully fetched market-data record.  Only the profile mapping
(`.info`, a string-keyed dictionary) is materialised at fetch time by
`get_ticker_data`; values are modelled as strings since no tool inspects
them beyond serialisation. -/
structure TickerRecord where
  info : List (String × String)
  deriving DecidableEq, Repr

/-- Process state observed by the tools: the memoisation cache of
`get_ticker_data` (most-recently-used entry first), the number of provider
contacts (executions of the cached function body), and the total time slept
in retry delays. -/
structure ServerState where
  cache : List (String × Option TickerRecord)
  calls : Nat
  slept : Nat
  deriving DecidableEq, Repr

/-- `functools.lru_cache(maxsize=128)`. -/
def cacheCapacity : Nat := 128

/-- First-match association-list lookup (dictionary access). -/
def lookupCache {α : Type} : List (String × α) → String → Option α
  | [], _ => none
  | (k, v) :: rest, key => if k = key then some v else lookupCache rest key

/-- Remove the first entry with the given key. -/
def removeKey {α : Type} : List (String × α) → String → List (String × α)
  | [], _ => []
  | (k, v) :: rest, key => if k = key then rest else (k, v) :: removeKey rest key

/-- `get_ticker_data` (server.py lines 74-90) together with its
`@lru_cache(maxsize=128)` wrapper.  The cache key is the raw argument
string; `ticker.upper()` happens only inside the body, before the provider
is contacted.  The body never raises: the exception path returns `None`,
which the cache stores like any other result. -/
def get_ticker_data (prov : String → Option TickerRecord) (st : ServerState)
    (ticker : String) : Option TickerRecord × ServerState :=
  match lookupCache st.cache ticker with
  | some r => (r, { st with cache := (ticker, r) :: removeKey st.cache ticker })
  | none =>
      let r := prov ticker.toUpper
      (r, { st with cache := ((ticker, r) :: st.cache).take cacheCapacity,
                    calls := st.calls + 1 })

/-- `time.sleep(1)`: one fixed retry delay, accounted in `slept`. -/
def sleepOne (st : ServerState) : ServerState :=
  { st with slept := st.slept + 1 }

/-- `str()` of the `AttributeError` raised by `None.history(...)`. -/
def attrErrHistory : String := "NoneType object has no attribute history"

/-- `str()` of the `AttributeError` raised by `None.info`. -/
def attrErrInfo : String := "NoneType object has no attribute info"

/-- `str()` of the `AttributeError` raised by `None.quarterly_income_stmt`. -/
def attrErrIncome : String := "NoneType object has no attribute quarterly_income_stmt"

/-- `str(last_months_closes)`: serialisation of the pandas closing-price
series, modelled as the newline-joined rows. -/
def seriesToString (closes : List String) : String :=
  String.intercalate "\n" closes

/-- One fetch-and-format attempt of `stock_price`: evaluate
`dat.history(period=...)[Close]` given the fetched record.  `dat = none`
raises an `AttributeError`; otherwise the attempt succeeds or fails with
the history access (`hist` is the behaviour of that access). -/
def priceAttempt (dat : Option TickerRecord)
    (hist : Except String (List String)) : Except String String :=
  match dat with
  | none => .error attrErrHistory
  | some _ =>
      match hist with
      | .ok closes => .ok (seriesToString closes)
      | .error e => .error e

/-- `stock_price` (server.py lines 94-123): first attempt; on failure sleep
one time unit, retry the fetch-and-format sequence exactly once; on a
second failure return the formatted error string.  `h1`, `h2` are the
behaviours of the history access on the two attempts. -/
def stock_price (prov : String → Option TickerRecord)
    (h1 h2 : Except String (List String)) (st : ServerState)
    (stock_ticker : String) : String × ServerState :=
  let r1 := get_ticker_data prov st stock_ticker
  match priceAttempt r1.1 h1 with
  | .ok s =>
      ("Stock price over the last month for " ++ stock_ticker ++ ": " ++ s, r1.2)
  | .error _ =>
      let st2 := sleepOne r1.2
      let r2 := get_ticker_data prov st2 stock_ticker
      match priceAttempt r2.1 h2 with
      | .ok s =>
          ("Stock price over the last month for " ++ stock_ticker ++ ": " ++ s, r2.2)
      | .error e2 =>
          ("Error retrieving stock price for " ++ stock_ticker ++ ": " ++ e2, r2.2)

/-- The fixed allow-list of profile fields projected by `stock_info`. -/
def allowList : List String :=
  ["shortName", "longName", "sector", "industry", "website", "market",
   "marketCap", "country", "city", "state", "zip", "phone"]

/-- The dict comprehension of `stock_info`:
`(k, dat.info.get(k))` for `k` in the allow-list if `k in dat.info`. -/
def relevantInfo (info : List (String × String)) : List (String × String) :=
  allowList.filterMap (fun k => (lookupCache info k).map (fun v => (k, v)))

/-- `json.dumps(d, indent=2)` over the projected dictionary. -/
def jsonDumps (l : List (String × String)) : String :=
  match l with
  | [] => "\x7b\x7d"
  | _ =>
      "\x7b\n" ++
        String.intercalate ",\n"
          (l.map (fun p => "  \"" ++ p.1 ++ "\": \"" ++ p.2 ++ "\"")) ++
        "\n\x7d"

/-- First attempt of `stock_info` (server.py lines 138-151): raises on a
`None` record, raises `ValueError` when the profile dictionary is empty
(`if not dat.info`), otherwise projects and serialises. -/
def infoAttempt1 (stock_ticker : String) (dat : Option TickerRecord) :
    Except String String :=
  match dat with
  | none => .error attrErrInfo
  | some d =>
      if d.info = [] then
        .error ("No information found for ticker " ++ stock_ticker)
      else
        .ok (jsonDumps (relevantInfo d.info))

/-- Retry attempt of `stock_info` (server.py lines 155-161): identical to
the first attempt except that the empty-profile check is absent. -/
def infoAttempt2 (dat : Option TickerRecord) : Except String String :=
  match dat with
  | none => .error attrErrInfo
  | some d => .ok (jsonDumps (relevantInfo d.info))

/-- `stock_info` (server.py lines 126-163). -/
def stock_info (prov : String → Option TickerRecord) (st : ServerState)
    (stock_ticker : String) : String × ServerState :=
  let r1 := get_ticker_data prov st stock_ticker
  match infoAttempt1 stock_ticker r1.1 with
  | .ok body =>
      ("Background information for " ++ stock_ticker ++ ": " ++ body, r1.2)
  | .error _ =>
      let st2 := sleepOne r1.2
      let r2 := get_ticker_data prov st2 stock_ticker
      match infoAttempt2 r2.1 with
      | .ok body =>
          ("Background information for " ++ stock_ticker ++ ": " ++ body, r2.2)
      | .error e2 =>
          ("Error retrieving stock info for " ++ stock_ticker ++ ": " ++ e2, r2.2)

/-- One attempt of `income_statement`: evaluate
`dat.quarterly_income_stmt` given the fetched record (`q` is the behaviour
of that access, returning the serialised statement table). -/
def incomeAttempt (dat : Option TickerRecord) (q : Except String String) :
    Except String String :=
  match dat with
  | none => .error attrErrIncome
  | some _ => q

/-- `income_statement` (server.py lines 166-190). -/
def income_statement (prov : String → Option TickerRecord)
    (q1 q2 : Except String String) (st : ServerState)
    (stock_ticker : String) : String × ServerState :=
  let r1 := get_ticker_data prov st stock_ticker
  match incomeAttempt r1.1 q1 with
  | .ok s =>
      ("Income statement for " ++ stock_ticker ++ ": " ++ s, r1.2)
  | .error _ =>
      let st2 := sleepOne r1.2
      let r2 := get_ticker_data prov st2 stock_ticker
      match incomeAttempt r2.1 q2 with
      | .ok s =>
          ("Income statement for " ++ stock_ticker ++ ": " ++ s, r2.2)
      | .error e2 =>
          ("Error retrieving income statement for " ++ stock_ticker ++ ": " ++ e2, r2.2)

/-- The static part of the `stock_summary` prompt template preceding the
interpolated `stock_data`. -/
def summaryHeader : String :=
  "You are a helpful financial assistant designed to summarise stock data.\n                Using the information below, summarise the pertinent points relevant to stock price movement\n                Data "

/-- `stock_summary` (server.py lines 32-37): pure string formatting. -/
def stock_summary (stock_data : String) : String :=
  summaryHeader ++ stock_data

/-- A top-1 similarity query result from the ticker index (ids, documents,
distances), as returned by `collection.query`. -/
structure QueryResult where
  ids : List String
  documents : List String
  distances : List String
  deriving DecidableEq, Repr

/-- `str(results)`: the Python dictionary repr of a query result. -/
def queryResultToString (q : QueryResult) : String :=
  "\x7bids: [[" ++ String.intercalate ", " q.ids ++ "]], documents: [[" ++
    String.intercalate ", " q.documents ++ "]], distances: [[" ++
    String.intercalate ", " q.distances ++ "]]\x7d"

/-- Behaviour of the ChromaDB vector database: whether opening the
`stock_tickers` collection succeeds (`get_chroma_collection` catches its
own exceptions and returns `None` on failure), and the outcome of a query
(`.error` models a raised exception). -/
structure ChromaEnv where
  collection : Option Unit
  query : String → Except String QueryResult

/-- `get_chroma_collection` (server.py lines 40-46): returns the collection
handle, or `None` when connecting raised (the exception is caught inside). -/
def get_chroma_collection (env : ChromaEnv) : Option Unit :=
  env.collection

/-- `list_tickers` (server.py lines 49-71): the ticker-search resource. -/
def list_tickers (env : ChromaEnv) (stock_name : String) : String :=
  match get_chroma_collection env with
  | none => "Error: Unable to connect to ticker database"
  | some _ =>
      match env.query stock_name with
      | .ok results => queryResultToString results
      | .error e => "Error searching for ticker: " ++ e

/-- Fold a sequence of `get_ticker_data` calls over the state, keeping only
the state (used to reason about the cache across call sequences). -/
def runFetches (prov : String → Option TickerRecord) :
    ServerState → List String → ServerState
  | st, [] => st
  | st, t :: ts => runFetches prov (get_ticker_data prov st t).2 ts

/-- The empty initial process state. -/
def st0 : ServerState := ⟨[], 0, 0⟩

/-- A provider behaviour that fails on every ticker. -/
def provFail : String → Option TickerRecord := fun _ => none

/-- A provider behaviour returning a record with a one-field profile. -/
def provIBM : String → Option TickerRecord :=
  fun _ => some ⟨[("shortName", "International Business Machines")]⟩

/-- A provider behaviour returning a record with an empty profile. -/
def provEmptyInfo : String → Option TickerRecord := fun _ => some ⟨[]⟩

/-- A state whose cache is full: 128 entries (not containing "NVDA"). -/
def stFull : ServerState := ⟨List.replicate 128 ("AAPL", none), 0, 0⟩

/-- A vector-database behaviour where opening the collection fails. -/
def envDown : ChromaEnv := ⟨none, fun _ => Except.error "db down"⟩

/-- A vector-database behaviour where the collection opens but every query
raises. -/
def envQFail : ChromaEnv := ⟨some (), fun _ => Except.error "db down"⟩

/-! ### Helper lemmas about the cache -/

theorem lookupCache_cons_self {α : Type} (k : String) (v : α)
    (rest : List (String × α)) : lookupCache ((k, v) :: rest) k = some v := by
  simp [lookupCache]

theorem get_ticker_data_miss (prov : String → Option TickerRecord)
    (st : ServerState) (s : String) (h : lookupCache st.cache s = none) :
    get_ticker_data prov st s =
      (prov s.toUpper,
        { st with cache := ((s, prov s.toUpper) :: st.cache).take cacheCapacity,
                  calls := st.calls + 1 }) := by
  simp [get_ticker_data, h]

theorem get_ticker_data_hit (prov : String → Option TickerRecord)
    (st : ServerState) (s : String) (r : Option TickerRecord)
    (h : lookupCache st.cache s = some r) :
    get_ticker_data prov st s =
      (r, { st with cache := (s, r) :: removeKey st.cache s }) := by
  simp [get_ticker_data, h]

theorem get_ticker_data_cache_head (prov : String → Option TickerRecord)
    (st : ServerState) (s : String) :
    ∃ rest, (get_ticker_data prov st s).2.cache =
      (s, (get_ticker_data prov st s).1) :: rest := by
  cases h : lookupCache st.cache s with
  | none =>
      rw [get_ticker_data_miss prov st s h]
      exact ⟨st.cache.take 127, by
        rw [show cacheCapacity = 127 + 1 from rfl, List.take_succ_cons]⟩
  | some r =>
      rw [get_ticker_data_hit prov st s r h]
      exact ⟨removeKey st.cache s, rfl⟩

theorem get_ticker_data_slept (prov : String → Option TickerRecord)
    (st : ServerState) (s : String) :
    (get_ticker_data prov st s).2.slept = st.slept := by
  cases h : lookupCache st.cache s with
  | none => rw [get_ticker_data_miss prov st s h]
  | some r => rw [get_ticker_data_hit prov st s r h]

theorem get_ticker_data_calls_le (prov : String → Option TickerRecord)
    (st : ServerState) (s : String) :
    (get_ticker_data prov st s).2.calls ≤ st.calls + 1 := by
  cases h : lookupCache st.cache s with
  | none => rw [get_ticker_data_miss prov st s h]
  | some r =>
      rw [get_ticker_data_hit prov st s r h]
      exact Nat.le_succ st.calls

/-- A second consecutive call with the identical argument string hits the
cache: it returns the first result and contacts the provider no further. -/
theorem get_ticker_data_idem (prov : String → Option TickerRecord)
    (st : ServerState) (s : String) :
    (get_ticker_data prov ((get_ticker_data prov st s).2) s).1 =
      (get_ticker_data prov st s).1 ∧
    (get_ticker_data prov ((get_ticker_data prov st s).2) s).2.calls =
      (get_ticker_data prov st s).2.calls := by
  obtain ⟨rest, hhead⟩ := get_ticker_data_cache_head prov st s
  have hlk : lookupCache ((get_ticker_data prov st s).2).cache s =
      some (get_ticker_data prov st s).1 := by
    rw [hhead]; exact lookupCache_cons_self _ _ _
  rw [get_ticker_data_hit prov _ s _ hlk]
  exact ⟨rfl, rfl⟩

theorem removeKey_length {α : Type} (c : List (String × α)) (k : String)
    (v : α) (h : lookupCache c k = some v) :
    c.length = (removeKey c k).length + 1 := by
  induction c with
  | nil => simp [lookupCache] at h
  | cons p rest ih =>
      obtain ⟨k1, v1⟩ := p
      by_cases hk : k1 = k
      · subst hk
        simp [removeKey]
      · simp [lookupCache, hk] at h
        simp [removeKey, hk, ih h]

theorem get_ticker_data_cache_length_le (prov : String → Option TickerRecord)
    (st : ServerState) (s : String) (h : st.cache.length ≤ cacheCapacity) :
    (get_ticker_data prov st s).2.cache.length ≤ cacheCapacity := by
  cases hl : lookupCache st.cache s with
  | none =>
      rw [get_ticker_data_miss prov st s hl]
      simp
  | some r =>
      rw [get_ticker_data_hit prov st s r hl]
      have := removeKey_length st.cache s r hl
      simp only [List.length_cons]
      omega

theorem runFetches_cache_length_le (prov : String → Option TickerRecord)
    (st : ServerState) (ts : List String) (h : st.cache.length ≤ cacheCapacity) :
    (runFetches prov st ts).cache.length ≤ cacheCapacity := by
  induction ts generalizing st with
  | nil => exact h
  | cons t ts ih =>
      exact ih _ (get_ticker_data_cache_length_le prov st t h)

theorem get_ticker_data_evicts_lru (prov : String → Option TickerRecord)
    (st : ServerState) (k : String) (hfull : st.cache.length = cacheCapacity)
    (habsent : lookupCache st.cache k = none) :
    (get_ticker_data prov st k).2.cache =
      (k, prov k.toUpper) :: st.cache.dropLast := by
  rw [get_ticker_data_miss prov st k habsent]
  show ((k, prov k.toUpper) :: st.cache).take cacheCapacity = _
  rw [show cacheCapacity = 127 + 1 from rfl, List.take_succ_cons,
    List.dropLast_eq_take]
  rw [show cacheCapacity = 127 + 1 from rfl] at hfull
  rw [hfull]

theorem ne_empty_of_length_ne_zero {a : String} (ha : a.length ≠ 0) :
    a ≠ "" := by
  intro h
  exact ha (h ▸ String.length_empty)

theorem append_ne_empty_of_left {a : String} (b : String) (ha : a ≠ "") :
    a ++ b ≠ "" := by
  intro h
  have h2 := congrArg String.length h
  rw [String.length_append, String.length_empty] at h2
  apply ha
  cases a with
  | mk data =>
      cases data with
      | nil => rfl
      | cons c cs =>
          rw [String.length_mk] at h2
          simp at h2

/-- Keys of the projected profile: a key appears in the projection exactly
when it is allow-listed and present in the profile mapping. -/
theorem mem_relevantInfo_keys (info : List (String × String)) (k : String) :
    k ∈ (relevantInfo info).map Prod.fst ↔
      k ∈ allowList ∧ ∃ v, lookupCache info k = some v := by
  constructor
  · intro hk
    rcases List.mem_map.1 hk with ⟨p, hp, hpk⟩
    rcases List.mem_filterMap.1 hp with ⟨a, ha, hfa⟩
    rcases Option.map_eq_some'.1 hfa with ⟨v, hv, hpv⟩
    have hak : a = k := by rw [← hpk, ← hpv]
    subst hak
    exact ⟨ha, v, hv⟩
  · rintro ⟨hk, v, hv⟩
    exact List.mem_map.2 ⟨(k, v),
      List.mem_filterMap.2 ⟨k, hk, by rw [hv]; rfl⟩, rfl⟩

/-- A fetch performed on any state carrying the cache produced by a
previous fetch of the same string is a pure cache hit. -/
theorem get_ticker_data_hit_after (prov : String → Option TickerRecord)
    (st : ServerState) (s : String) (st' : ServerState)
    (h : st'.cache = ((get_ticker_data prov st s).2).cache) :
    get_ticker_data prov st' s =
      ((get_ticker_data prov st s).1,
        { st' with cache :=
            (s, (get_ticker_data prov st s).1) :: removeKey st'.cache s }) := by
  obtain ⟨rest, hhead⟩ := get_ticker_data_cache_head prov st s
  have hlk : lookupCache st'.cache s = some (get_ticker_data prov st s).1 := by
    rw [h, hhead]; exact lookupCache_cons_self _ _ _
  exact get_ticker_data_hit prov st' s _ hlk

theorem queryResultToString_ne_empty (q : QueryResult) :
    queryResultToString q ≠ "" := by
  unfold queryResultToString
  apply append_ne_empty_of_left
  apply append_ne_empty_of_left
  apply append_ne_empty_of_left
  apply append_ne_empty_of_left
  apply append_ne_empty_of_left
  apply append_ne_empty_of_left
  decide

/-! ### Claim theorems -/

/-- C9: for every input string, the prompt operation `stock_summary` is a
pure total function: it returns the fixed template with the input appended,
hence a string containing the input verbatim as a substring; being a plain
function of its argument (taking no `ServerState` and returning none), the
call has no effect on any program state. -/
theorem stock_summary_pure_contains_input (s : String) :
    stock_summary s = summaryHeader ++ s ∧
    ∃ pre post, stock_summary s = pre ++ s ++ post := by
  refine ⟨rfl, summaryHeader, "", ?_⟩
  simp [stock_summary]

/-- C3 (code bug): for a ticker whose fetched record has an empty profile
mapping, the first attempt of `stock_info` raises `ValueError`, but the
retry omits the empty-profile check (server.py lines 156-161) and returns a
success-formatted string with an empty projection instead of an error
string. -/
theorem stock_info_empty_profile_retry_returns_success_format :
    (stock_info provEmptyInfo st0 "IBM").1 =
      "Background information for " ++ "IBM" ++ ": " ++ "\x7b\x7d" := by
  rfl

/-- C2 (counterexample): `get_ticker_data` does not memoize by the
normalized ticker.  The strings "nvda" and "NVDA" are equal
case-insensitively, yet the second of two consecutive fetch calls with them
performs a second provider call (the `calls` counter advances), because
`lru_cache` keys on the raw argument and `ticker.upper()` runs only inside
the cached body. -/
theorem fetch_case_insensitive_memoization_cex :
    ("nvda".data.map Char.toLower = "NVDA".data.map Char.toLower) ∧
    (get_ticker_data provFail
        ((get_ticker_data provFail st0 "nvda").2) "NVDA").2.calls ≠
      ((get_ticker_data provFail st0 "nvda").2).calls := by
  exact ⟨by decide, by decide⟩

/-- C2 (amended): `get_ticker_data` memoizes by the raw argument string:
two consecutive fetch calls with the identical string return the same
cached record and the second performs no provider call; the ticker is
normalized to uppercase before the provider lookup (on a cache miss the
result is the provider value at the uppercased ticker), but after the cache
lookup, so case-insensitively equal yet distinct strings occupy distinct
cache entries. -/
theorem fetch_memoizes_by_raw_argument (prov : String → Option TickerRecord)
    (st : ServerState) (s : String) :
    (get_ticker_data prov ((get_ticker_data prov st s).2) s).1 =
      (get_ticker_data prov st s).1 ∧
    (get_ticker_data prov ((get_ticker_data prov st s).2) s).2.calls =
      ((get_ticker_data prov st s).2).calls ∧
    (lookupCache st.cache s = none →
      (get_ticker_data prov st s).1 = prov s.toUpper) := by
  refine ⟨(get_ticker_data_idem prov st s).1,
    (get_ticker_data_idem prov st s).2, fun h => ?_⟩
  rw [get_ticker_data_miss prov st s h]

theorem fetch_memoizes_by_raw_argument_witness :
    (get_ticker_data provFail
        ((get_ticker_data provFail st0 "NVDA").2) "NVDA").1 =
      (get_ticker_data provFail st0 "NVDA").1 ∧
    (get_ticker_data provFail st0 "NVDA").1 = provFail "NVDA".toUpper := by
  have h := fetch_memoizes_by_raw_argument provFail st0 "NVDA"
  exact ⟨h.1, h.2.2 rfl⟩

/-- C10: the memoizer caches absent results.  If the first fetch of a
string misses the cache and the provider fails (returns the absent value),
that absent value is stored: a second fetch with the identical string
returns the cached absent value without contacting the provider again, and
consequently the retry inside `stock_price` can never obtain a fresh
record — the invocation ends in the formatted error string. -/
theorem fetch_caches_absent_results (prov : String → Option TickerRecord)
    (h1 h2 : Except String (List String)) (st : ServerState) (s : String)
    (hmiss : lookupCache st.cache s = none) (hfail : prov s.toUpper = none) :
    (get_ticker_data prov st s).1 = none ∧
    (get_ticker_data prov ((get_ticker_data prov st s).2) s).1 = none ∧
    (get_ticker_data prov ((get_ticker_data prov st s).2) s).2.calls =
      ((get_ticker_data prov st s).2).calls ∧
    (stock_price prov h1 h2 st s).1 =
      "Error retrieving stock price for " ++ s ++ ": " ++ attrErrHistory := by
  have hfirst : (get_ticker_data prov st s).1 = none := by
    rw [get_ticker_data_miss prov st s hmiss, hfail]
  have hsecond := get_ticker_data_hit_after prov st s
    (sleepOne (get_ticker_data prov st s).2) rfl
  refine ⟨hfirst, ?_, (get_ticker_data_idem prov st s).2, ?_⟩
  · rw [(get_ticker_data_idem prov st s).1]; exact hfirst
  · have hpa : priceAttempt (get_ticker_data prov st s).1 h1 =
        Except.error attrErrHistory := by rw [hfirst]; rfl
    have hpa2 : priceAttempt
        (get_ticker_data prov (sleepOne (get_ticker_data prov st s).2) s).1
          h2 = Except.error attrErrHistory := by
      rw [hsecond]
      rw [hfirst]
      rfl
    simp [stock_price, hpa, hpa2]

theorem fetch_caches_absent_results_witness :
    (get_ticker_data provFail st0 "AAPL").1 = none ∧
    (get_ticker_data provFail
        ((get_ticker_data provFail st0 "AAPL").2) "AAPL").1 = none ∧
    (get_ticker_data provFail
        ((get_ticker_data provFail st0 "AAPL").2) "AAPL").2.calls =
      ((get_ticker_data provFail st0 "AAPL").2).calls ∧
    (stock_price provFail (Except.error "x") (Except.error "x") st0 "AAPL").1 =
      "Error retrieving stock price for " ++ "AAPL" ++ ": " ++ attrErrHistory :=
  fetch_caches_absent_results provFail (Except.error "x") (Except.error "x")
    st0 "AAPL" rfl rfl

/-- C1: every public tool operation is total from the host: for every input
ticker string and every behaviour of the underlying provider (including one
that fails on both attempts), each of `stock_price`, `stock_info` and
`income_statement` returns a string that is either the formatted result or
an error string containing the ticker symbol; no exception crosses the tool
boundary (the operations are total functions by construction). -/
theorem stock_tools_total (prov : String → Option TickerRecord)
    (h1 h2 : Except String (List String)) (q1 q2 : Except String String)
    (st : ServerState) (t : String) :
    ((∃ s, (stock_price prov h1 h2 st t).1 =
        "Stock price over the last month for " ++ t ++ ": " ++ s) ∨
      (∃ e, (stock_price prov h1 h2 st t).1 =
        "Error retrieving stock price for " ++ t ++ ": " ++ e)) ∧
    ((∃ b, (stock_info prov st t).1 =
        "Background information for " ++ t ++ ": " ++ b) ∨
      (∃ e, (stock_info prov st t).1 =
        "Error retrieving stock info for " ++ t ++ ": " ++ e)) ∧
    ((∃ s, (income_statement prov q1 q2 st t).1 =
        "Income statement for " ++ t ++ ": " ++ s) ∨
      (∃ e, (income_statement prov q1 q2 st t).1 =
        "Error retrieving income statement for " ++ t ++ ": " ++ e)) := by
  refine ⟨?_, ?_, ?_⟩
  · rcases hpa : priceAttempt (get_ticker_data prov st t).1 h1 with e | s
    · rcases hpb : priceAttempt
          (get_ticker_data prov (sleepOne (get_ticker_data prov st t).2) t).1
            h2 with e2 | s2
      · exact Or.inr ⟨e2, by simp [stock_price, hpa, hpb]⟩
      · exact Or.inl ⟨s2, by simp [stock_price, hpa, hpb]⟩
    · exact Or.inl ⟨s, by simp [stock_price, hpa]⟩
  · rcases hia : infoAttempt1 t (get_ticker_data prov st t).1 with e | b
    · rcases hib : infoAttempt2
          (get_ticker_data prov (sleepOne (get_ticker_data prov st t).2) t).1
          with e2 | b2
      · exact Or.inr ⟨e2, by simp [stock_info, hia, hib]⟩
      · exact Or.inl ⟨b2, by simp [stock_info, hia, hib]⟩
    · exact Or.inl ⟨b, by simp [stock_info, hia]⟩
  · rcases hqa : incomeAttempt (get_ticker_data prov st t).1 q1 with e | s
    · rcases hqb : incomeAttempt
          (get_ticker_data prov (sleepOne (get_ticker_data prov st t).2) t).1
            q2 with e2 | s2
      · exact Or.inr ⟨e2, by simp [income_statement, hqa, hqb]⟩
      · exact Or.inl ⟨s2, by simp [income_statement, hqa, hqb]⟩
    · exact Or.inl ⟨s, by simp [income_statement, hqa]⟩

/-- C4: when the first fetch-and-format attempt of `stock_price` fails, the
operation sleeps exactly one fixed time unit, retries the fetch-and-format
sequence exactly once (the provider body runs at most twice in the
invocation), and if the second attempt also fails it returns the formatted
error string.  The operation is structurally limited to the two attempts
modelled here, so a third attempt is never made. -/
theorem stock_price_retry_policy (prov : String → Option TickerRecord)
    (h1 h2 : Except String (List String)) (st : ServerState) (t : String)
    (e1 : String)
    (hfail : priceAttempt (get_ticker_data prov st t).1 h1 =
      Except.error e1) :
    (stock_price prov h1 h2 st t).2.slept = st.slept + 1 ∧
    (stock_price prov h1 h2 st t).2.calls ≤ st.calls + 2 ∧
    (∀ e2, priceAttempt
        (get_ticker_data prov (sleepOne (get_ticker_data prov st t).2) t).1
          h2 = Except.error e2 →
      (stock_price prov h1 h2 st t).1 =
        "Error retrieving stock price for " ++ t ++ ": " ++ e2) := by
  have hstate : (stock_price prov h1 h2 st t).2 =
      (get_ticker_data prov (sleepOne (get_ticker_data prov st t).2) t).2 := by
    rcases hpb : priceAttempt
        (get_ticker_data prov (sleepOne (get_ticker_data prov st t).2) t).1
          h2 with e2 | s2 <;>
      simp [stock_price, hfail, hpb]
  have hs1 : ((get_ticker_data prov st t).2).slept = st.slept :=
    get_ticker_data_slept prov st t
  have hs2 := get_ticker_data_slept prov
    (sleepOne (get_ticker_data prov st t).2) t
  have hc1 : ((get_ticker_data prov st t).2).calls ≤ st.calls + 1 :=
    get_ticker_data_calls_le prov st t
  have hc2 := get_ticker_data_calls_le prov
    (sleepOne (get_ticker_data prov st t).2) t
  refine ⟨?_, ?_, ?_⟩
  · rw [hstate, hs2]
    show ((get_ticker_data prov st t).2).slept + 1 = st.slept + 1
    rw [hs1]
  · rw [hstate]
    have : (sleepOne ((get_ticker_data prov st t).2)).calls =
        ((get_ticker_data prov st t).2).calls := rfl
    omega
  · intro e2 he2
    simp [stock_price, hfail, he2]

theorem stock_price_retry_policy_witness :
    (stock_price provFail (Except.error "boom") (Except.error "boom")
        st0 "NVDA").2.slept = st0.slept + 1 ∧
    (stock_price provFail (Except.error "boom") (Except.error "boom")
        st0 "NVDA").2.calls ≤ st0.calls + 2 ∧
    (stock_price provFail (Except.error "boom") (Except.error "boom")
        st0 "NVDA").1 =
      "Error retrieving stock price for " ++ "NVDA" ++ ": " ++
        attrErrHistory := by
  have h := stock_price_retry_policy provFail (Except.error "boom")
    (Except.error "boom") st0 "NVDA" attrErrHistory rfl
  exact ⟨h.1, h.2.1, h.2.2 attrErrHistory rfl⟩

/-- C5: when the fetch succeeds with a non-empty profile mapping,
`stock_info` outputs the success format built from the projected profile;
the projection contains only allow-listed keys, and every allow-listed key
absent from the profile mapping is omitted rather than defaulted. -/
theorem stock_info_allowlist_projection (prov : String → Option TickerRecord)
    (st : ServerState) (t : String) (dat : TickerRecord)
    (hfetch : (get_ticker_data prov st t).1 = some dat)
    (hne : dat.info ≠ []) :
    (stock_info prov st t).1 =
      "Background information for " ++ t ++ ": " ++
        jsonDumps (relevantInfo dat.info) ∧
    (∀ k, k ∈ (relevantInfo dat.info).map Prod.fst → k ∈ allowList) ∧
    (∀ k, k ∈ allowList → lookupCache dat.info k = none →
      ¬ k ∈ (relevantInfo dat.info).map Prod.fst) := by
  have hatt : infoAttempt1 t (get_ticker_data prov st t).1 =
      Except.ok (jsonDumps (relevantInfo dat.info)) := by
    rw [hfetch]
    simp [infoAttempt1, hne]
  refine ⟨by simp [stock_info, hatt], ?_, ?_⟩
  · intro k hk
    exact ((mem_relevantInfo_keys dat.info k).1 hk).1
  · intro k _ habs hmem
    rcases ((mem_relevantInfo_keys dat.info k).1 hmem).2 with ⟨v, hv⟩
    rw [habs] at hv
    exact Option.noConfusion hv

theorem stock_info_allowlist_projection_witness :
    (stock_info provIBM st0 "IBM").1 =
      "Background information for " ++ "IBM" ++ ": " ++
        jsonDumps (relevantInfo
          [("shortName", "International Business Machines")]) ∧
    "shortName" ∈ allowList ∧
    ¬ "longName" ∈ (relevantInfo
      [("shortName", "International Business Machines")]).map Prod.fst := by
  have h := stock_info_allowlist_projection provIBM st0 "IBM"
    ⟨[("shortName", "International Business Machines")]⟩ rfl (by decide)
  exact ⟨h.1, h.2.1 "shortName" (by decide), h.2.2 "longName" (by decide) rfl⟩

/-- C6: for a valid known ticker — one whose fetch succeeds and whose
one-month price-history read succeeds with a non-empty closing series —
`stock_price` returns exactly the string beginning with the fixed header,
followed by the ticker symbol, ": ", and the closing-price series. -/
theorem stock_price_valid_ticker_format (prov : String → Option TickerRecord)
    (h2 : Except String (List String)) (st : ServerState) (t : String)
    (dat : TickerRecord) (closes : List String)
    (hfetch : (get_ticker_data prov st t).1 = some dat)
    (hne : closes ≠ []) :
    (stock_price prov (Except.ok closes) h2 st t).1 =
      "Stock price over the last month for " ++ t ++ ": " ++
        seriesToString closes ∧
    closes ≠ [] := by
  have hatt : priceAttempt (get_ticker_data prov st t).1 (Except.ok closes) =
      Except.ok (seriesToString closes) := by
    rw [hfetch]
    rfl
  exact ⟨by simp [stock_price, hatt], hne⟩

theorem stock_price_valid_ticker_format_witness :
    (stock_price provIBM (Except.ok ["101.5", "102.0"]) (Except.error "x")
        st0 "NVDA").1 =
      "Stock price over the last month for " ++ "NVDA" ++ ": " ++
        seriesToString ["101.5", "102.0"] ∧
    (["101.5", "102.0"] : List String) ≠ [] := by
  have h := stock_price_valid_ticker_format provIBM (Except.error "x") st0
    "NVDA" ⟨[("shortName", "International Business Machines")]⟩
    ["101.5", "102.0"] rfl (by decide)
  exact h

/-- C7: for every input stock-name string and every behaviour of the vector
database, `list_tickers` returns a non-empty string and never raises: when
opening the collection fails it returns the fixed unavailable sentinel, and
an exception during the query is caught and converted to a descriptive
error string. -/
theorem list_tickers_total_nonempty (env : ChromaEnv) (name : String) :
    list_tickers env name ≠ "" ∧
    (get_chroma_collection env = none →
      list_tickers env name = "Error: Unable to connect to ticker database") ∧
    (∀ u e, get_chroma_collection env = some u →
      env.query name = Except.error e →
      list_tickers env name = "Error searching for ticker: " ++ e) := by
  refine ⟨?_, ?_, ?_⟩
  · cases hc : env.collection with
    | none =>
        simp only [list_tickers, get_chroma_collection, hc]
        decide
    | some u =>
        cases hq : env.query name with
        | error e =>
            simp only [list_tickers, get_chroma_collection, hc, hq]
            exact append_ne_empty_of_left e (by decide)
        | ok results =>
            simp only [list_tickers, get_chroma_collection, hc, hq]
            exact queryResultToString_ne_empty results
  · intro hc
    simp [list_tickers, hc]
  · intro u e hc hq
    simp [list_tickers, hc, hq]

theorem list_tickers_total_nonempty_witness :
    list_tickers envDown "Google" ≠ "" ∧
    list_tickers envDown "Google" =
      "Error: Unable to connect to ticker database" ∧
    list_tickers envQFail "Google" =
      "Error searching for ticker: " ++ "db down" := by
  have hd := list_tickers_total_nonempty envDown "Google"
  have hq := list_tickers_total_nonempty envQFail "Google"
  exact ⟨hd.1, hd.2.1 rfl, hq.2.2 () "db down" rfl rfl⟩

/-- C8: the memoization cache of `get_ticker_data` is a
least-recently-used cache of fixed capacity 128: starting from any state
within capacity, after any sequence of fetch calls the cache holds at most
128 entries (hence at most 128 distinct ticker keys); and when a new
ticker misses a full cache of 128 entries the least-recently-used (last)
entry is evicted while the new entry is inserted in front of all remaining
entries, which are preserved in order. -/
theorem fetch_cache_lru_capacity :
    (∀ prov st ts, st.cache.length ≤ 128 →
      (runFetches prov st ts).cache.length ≤ 128) ∧
    (∀ prov st k, st.cache.length = 128 → lookupCache st.cache k = none →
      (get_ticker_data prov st k).2.cache =
        (k, prov k.toUpper) :: st.cache.dropLast) :=
  ⟨fun prov st ts h => runFetches_cache_length_le prov st ts h,
    fun prov st k h1 h2 => get_ticker_data_evicts_lru prov st k h1 h2⟩

set_option maxRecDepth 8192 in
theorem fetch_cache_lru_capacity_witness :
    (runFetches provFail st0 ["NVDA", "nvda", "IBM"]).cache.length ≤ 128 ∧
    (get_ticker_data provFail stFull "NVDA").2.cache =
      ("NVDA", provFail "NVDA".toUpper) :: stFull.cache.dropLast := by
  have h := fetch_cache_lru_capacity
  exact ⟨h.1 provFail st0 ["NVDA", "nvda", "IBM"] (by decide),
    h.2 provFail stFull "NVDA" (by decide) (by decide)⟩

end StockServer
